import Mathlib

/-
  Verification of the document-extraction engine (Azure Functions repository).

  The repository's extractors manipulate Python dicts whose values are strings
  or numbers (ints from `_safe_int`, floats from `safe_float`/`float`).  We
  embed such dicts as insertion-ordered association lists from `String` to
  `Option Val` (`none` models Python's `None`), and Python floats as exact
  rationals (the monetary strings handled here are short decimal literals, for
  which `float` parsing is exact enough that no claim depends on binary
  rounding).
-/

/-- A Python value as it occurs in the extractors' dicts: an int (from
`_safe_int`), a string, or a float (modelled as a rational). -/
inductive Val where
  | i : Int → Val
  | s : String → Val
  | q : ℚ → Val
deriving DecidableEq, Repr

/-- A Python dict with string keys: an insertion-ordered association list.
A stored `none` models an entry whose value is Python `None`. -/
abbrev PyDict := List (String × Option Val)

/-- First-match lookup of the raw stored entry, `none` if the key is absent
(`k in d` / raw subscript view of the dict). -/
def dGet (k : String) : PyDict → Option (Option Val)
  | [] => none
  | e :: es => if e.1 = k then some e.2 else dGet k es

/-- Python's `d.get(k)`: `None` both when the key is absent and when it is
stored with value `None`. -/
def pyGet (d : PyDict) (k : String) : Option Val :=
  (dGet k d).join

/-- Python's `d[k] = v`: replace in place if the key is present, else append. -/
def dictSet (d : PyDict) (k : String) (v : Option Val) : PyDict :=
  if (dGet k d).isSome then d.map (fun e => if e.1 = k then (k, v) else e)
  else d ++ [(k, v)]

/-- Does `s` begin with the pattern `p`? -/
def listStartsWith : List Char → List Char → Bool
  | [], _ => true
  | _ :: _, [] => false
  | c :: cs, d :: ds => c = d && listStartsWith cs ds

/-- Does the pattern `p` occur contiguously in the list? -/
def listContainsRun (p : List Char) : List Char → Bool
  | [] => p.isEmpty
  | c :: cs => listStartsWith p (c :: cs) || listContainsRun p cs

/-- Python's `sub in s` substring test. -/
def strContains (s sub : String) : Bool :=
  listContainsRun sub.data s.data

/-- Python's `s.lower()` (ASCII case mapping suffices for these inputs). -/
def pyLower (s : String) : String :=
  String.mk (s.data.map Char.toLower)

/-- Python's `s.strip()`: drop whitespace from both ends. -/
def pyTrim (s : String) : String :=
  String.mk
    (((s.data.dropWhile Char.isWhitespace).reverse.dropWhile
        Char.isWhitespace).reverse)

/-- Left-to-right non-overlapping replacement of the pattern `p` by `r`,
with enough fuel to consume the whole list. -/
def replFuel (p r : List Char) : Nat → List Char → List Char
  | _, [] => []
  | 0, s => s
  | fuel + 1, c :: cs =>
    if listStartsWith p (c :: cs) then r ++ replFuel p r fuel ((c :: cs).drop p.length)
    else c :: replFuel p r fuel cs

/-- Python's `s.replace(pat, rep)` (the extractors never call it with an empty
pattern). -/
def pyReplace (s pat rep : String) : String :=
  if pat.data.isEmpty then s
  else String.mk (replFuel pat.data rep.data s.data.length s.data)

/-- Splitting on a non-empty separator, left to right, with fuel; `cur` is the
reversed piece being accumulated. -/
def splitOnFuel (sep : List Char) : Nat → List Char → List Char → List String
  | _, [], cur => [String.mk cur.reverse]
  | 0, s, cur => [String.mk (cur.reverse ++ s)]
  | fuel + 1, c :: cs, cur =>
    if listStartsWith sep (c :: cs) then
      String.mk cur.reverse :: splitOnFuel sep fuel ((c :: cs).drop sep.length) []
    else splitOnFuel sep fuel cs (c :: cur)

/-- Python's `s.split(sep)` for a non-empty separator. -/
def pySplitOn (s sep : String) : List String :=
  if sep.data.isEmpty then [s]
  else splitOnFuel sep.data s.data.length s.data []

/-- The maximal runs of characters satisfying `cl`; `cur` is the reversed run
being accumulated. -/
def runsAux (cl : Char → Bool) : List Char → List Char → List String
  | [], cur => if cur.isEmpty then [] else [String.mk cur.reverse]
  | c :: cs, cur =>
    if cl c then runsAux cl cs (c :: cur)
    else if cur.isEmpty then runsAux cl cs []
    else String.mk cur.reverse :: runsAux cl cs []

/-- Python's `s.split()`: split on whitespace runs, dropping empty pieces. -/
def pySplit (s : String) : List String :=
  runsAux (fun c => !c.isWhitespace) s.data []

section DictLemmas

theorem dGet_append (k : String) (a b : PyDict) :
    dGet k (a ++ b) = (dGet k a).or (dGet k b) := by
  induction a with
  | nil => simp [dGet]
  | cons e es ih =>
    by_cases h : e.1 = k <;> simp [dGet, h, ih]

theorem dGet_map_replace (d : PyDict) (k : String) (v : Option Val)
    (h : (dGet k d).isSome) :
    dGet k (d.map (fun e => if e.1 = k then (k, v) else e)) = some v := by
  induction d with
  | nil => simp [dGet] at h
  | cons e es ih =>
    by_cases h1 : e.1 = k
    · simp [dGet, h1]
    · simp only [dGet, h1, if_false] at h
      simp [dGet, h1, ih h]

theorem dGet_map_replace_ne (d : PyDict) (k k' : String) (v : Option Val)
    (h : k' ≠ k) :
    dGet k' (d.map (fun e => if e.1 = k then (k, v) else e)) = dGet k' d := by
  induction d with
  | nil => simp [dGet]
  | cons e es ih =>
    by_cases h1 : e.1 = k
    · have h2 : k ≠ k' := fun hc => h hc.symm
      simp [dGet, h1, h2, ih, fun hc : e.1 = k' => h (hc.symm.trans h1)]
    · by_cases h2 : e.1 = k' <;> simp [dGet, h, h1, h2, ih]

theorem dGet_dictSet (d : PyDict) (k k' : String) (v : Option Val) :
    dGet k' (dictSet d k v) = if k' = k then some v else dGet k' d := by
  unfold dictSet
  by_cases hs : (dGet k d).isSome
  · by_cases h : k' = k
    · subst h; simp [hs, dGet_map_replace d k' v hs]
    · simp [hs, h, dGet_map_replace_ne d k k' v h]
  · have hn : dGet k d = none := Option.not_isSome_iff_eq_none.mp hs
    by_cases h : k' = k
    · subst h; simp [hs, dGet_append, hn, dGet]
    · simp [hs, h, dGet_append, dGet, Ne.symm h]

theorem pyGet_dictSet (d : PyDict) (k k' : String) (v : Option Val) :
    pyGet (dictSet d k v) k' = if k' = k then v else pyGet d k' := by
  unfold pyGet
  rw [dGet_dictSet]
  by_cases h : k' = k <;> simp [h]

end DictLemmas

/-! ## Cascading extractor framework

`get_payment` (payments/extract_payments.py) and `extract_invoice_from_pdf`
(invoices/extract_invoice_attachment.py) share the same loop:

    for extractor in extractors:
        try:
            update = extractor()
            for key, value in update.items():
                if value is not None and acc.get(key) is None:
                    acc[key] = value
            if all(acc.get(key) is not None for key in KEYS if key != 'state'):
                break
        except Exception as e:
            logger.error(...)

A strategy is modelled by its observable outcome on the given input: either the
partial dict it returned (`Except.ok`) or the exception it raised
(`Except.error ()`). -/

/-- The outcome of running one extraction strategy on the input document. -/
abbrev Strat := Except Unit PyDict

/-- One merge pass: `for key, value in update.items(): if value is not None and
acc.get(key) is None: acc[key] = value`. -/
def mergeUpdate (acc : PyDict) (upd : PyDict) : PyDict :=
  upd.foldl (fun a e =>
    match e.2 with
    | none => a
    | some v => if (pyGet a e.1).isSome then a else dictSet a e.1 (some v)) acc

/-- `all(acc.get(key) is not None for key in keys if key != 'state')`. -/
def allFilled (keys : List String) (acc : PyDict) : Bool :=
  (keys.filter (fun k => decide (k ≠ "state"))).all (fun k => (pyGet acc k).isSome)

/-- The cascade loop: merge each successful strategy's update into the
accumulator, stop early once all required fields are non-null, and skip any
strategy that raised. -/
def cascadeRun (keys : List String) (acc : PyDict) : List Strat → PyDict
  | [] => acc
  | .error _ :: rest => cascadeRun keys acc rest
  | .ok u :: rest =>
    let acc' := mergeUpdate acc u
    if allFilled keys acc' then acc' else cascadeRun keys acc' rest

/-- The updates the cascade actually merges, in order (successful strategies up
to and including the one that triggers the early stop). -/
def cascadeApplied (keys : List String) (acc : PyDict) : List Strat → List PyDict
  | [] => []
  | .error _ :: rest => cascadeApplied keys acc rest
  | .ok u :: rest =>
    let acc' := mergeUpdate acc u
    if allFilled keys acc' then [u] else u :: cascadeApplied keys acc' rest

/-- The first non-`None` value an update dict carries for field `k` (entries in
order). -/
def updGet (u : PyDict) (k : String) : Option Val :=
  match u with
  | [] => none
  | e :: es =>
    if e.1 = k then
      match e.2 with
      | none => updGet es k
      | some v => some v
    else updGet es k

/-- "First non-null value for the field across the given dicts, in order,
starting from `o`" — the spec's merge policy stated denotationally. -/
def firstSome (o : Option Val) (us : List PyDict) (k : String) : Option Val :=
  us.foldl (fun a u => a.or (updGet u k)) o

/-- A dict none of whose stored values is `None` (the cascade accumulators
never store `None`: the merge only writes non-null values). -/
def accClean (d : PyDict) : Bool :=
  d.all (fun e => e.2.isSome)

section CascadeLemmas

theorem accClean_dictSet (d : PyDict) (k : String) (v : Val)
    (h : accClean d = true) : accClean (dictSet d k (some v)) = true := by
  unfold dictSet
  by_cases hs : (dGet k d).isSome
  · rw [if_pos hs]
    simp only [accClean, List.all_map, List.all_eq_true] at h ⊢
    intro e he
    by_cases h1 : e.1 = k <;> simp [Function.comp, h1, h e he]
  · rw [if_neg hs]
    unfold accClean at h ⊢
    rw [List.all_append]
    simp [h]

theorem accClean_no_none (d : PyDict) (k : String) (h : accClean d = true)
    (hd : dGet k d = some none) : False := by
  induction d with
  | nil => simp [dGet] at hd
  | cons e es ih =>
    simp only [accClean, List.all_cons, Bool.and_eq_true] at h
    by_cases h1 : e.1 = k
    · simp only [dGet, h1, if_true, Option.some.injEq] at hd
      rw [hd] at h
      simp at h
    · simp only [dGet, h1, if_false] at hd
      exact ih h.2 hd

theorem accClean_dGet (d : PyDict) (k : String) (h : accClean d = true)
    (hn : pyGet d k = none) : dGet k d = none := by
  match hd : dGet k d with
  | none => rfl
  | some none => exact (accClean_no_none d k h hd).elim
  | some (some v) =>
    exfalso
    unfold pyGet at hn
    rw [hd] at hn
    simp at hn

theorem pyGet_mergeUpdate (u : PyDict) (acc : PyDict) (k : String)
    (h : accClean acc = true) :
    pyGet (mergeUpdate acc u) k = (pyGet acc k).or (updGet u k) := by
  induction u generalizing acc with
  | nil => simp [mergeUpdate, updGet]
  | cons e es ih =>
    match he : e.2 with
    | none =>
      have hstep : mergeUpdate acc (e :: es) = mergeUpdate acc es := by
        simp [mergeUpdate, List.foldl_cons, he]
      rw [hstep, ih acc h]
      by_cases h1 : e.1 = k <;> simp [updGet, h1, he]
    | some v =>
      by_cases hs : (pyGet acc e.1).isSome
      · have hstep : mergeUpdate acc (e :: es) = mergeUpdate acc es := by
          simp [mergeUpdate, List.foldl_cons, he, hs]
        rw [hstep, ih acc h]
        by_cases h1 : e.1 = k
        · subst h1
          obtain ⟨w, hw⟩ := Option.isSome_iff_exists.mp hs
          simp [updGet, he, hw]
        · simp [updGet, h1]
      · have hstep : mergeUpdate acc (e :: es) =
            mergeUpdate (dictSet acc e.1 (some v)) es := by
          simp [mergeUpdate, List.foldl_cons, he, hs]
        have hnone : pyGet acc e.1 = none :=
          Option.not_isSome_iff_eq_none.mp (by simpa using hs)
        rw [hstep, ih _ (accClean_dictSet acc e.1 v h)]
        rw [pyGet_dictSet]
        by_cases h1 : e.1 = k
        · rw [if_pos h1.symm]
          rw [h1] at hnone
          simp [updGet, h1, he, hnone]
        · rw [if_neg (fun hc : k = e.1 => h1 hc.symm)]
          simp [updGet, h1, he]

theorem accClean_mergeUpdate (u : PyDict) (acc : PyDict)
    (h : accClean acc = true) : accClean (mergeUpdate acc u) = true := by
  induction u generalizing acc with
  | nil => simpa [mergeUpdate]
  | cons e es ih =>
    match he : e.2 with
    | none =>
      have hstep : mergeUpdate acc (e :: es) = mergeUpdate acc es := by
        simp [mergeUpdate, List.foldl_cons, he]
      rw [hstep]; exact ih acc h
    | some v =>
      by_cases hs : (pyGet acc e.1).isSome
      · have hstep : mergeUpdate acc (e :: es) = mergeUpdate acc es := by
          simp [mergeUpdate, List.foldl_cons, he, hs]
        rw [hstep]; exact ih acc h
      · have hstep : mergeUpdate acc (e :: es) =
            mergeUpdate (dictSet acc e.1 (some v)) es := by
          simp [mergeUpdate, List.foldl_cons, he, hs]
        rw [hstep]; exact ih _ (accClean_dictSet acc e.1 v h)

theorem dGet_mergeUpdate_preserve (u : PyDict) (acc : PyDict) (k : String)
    (v : Val) (h : dGet k acc = some (some v)) :
    dGet k (mergeUpdate acc u) = some (some v) := by
  induction u generalizing acc with
  | nil => simpa [mergeUpdate]
  | cons e es ih =>
    match he : e.2 with
    | none =>
      have hstep : mergeUpdate acc (e :: es) = mergeUpdate acc es := by
        simp [mergeUpdate, List.foldl_cons, he]
      rw [hstep]; exact ih acc h
    | some w =>
      by_cases hs : (pyGet acc e.1).isSome
      · have hstep : mergeUpdate acc (e :: es) = mergeUpdate acc es := by
          simp [mergeUpdate, List.foldl_cons, he, hs]
        rw [hstep]; exact ih acc h
      · have hstep : mergeUpdate acc (e :: es) =
            mergeUpdate (dictSet acc e.1 (some w)) es := by
          simp [mergeUpdate, List.foldl_cons, he, hs]
        rw [hstep]
        apply ih
        rw [dGet_dictSet]
        by_cases h1 : k = e.1
        · exfalso
          apply hs
          rw [← h1]
          unfold pyGet
          rw [h]
          rfl
        · rw [if_neg h1]
          exact h

theorem dGet_cascadeRun_preserve (keys : List String) (strats : List Strat)
    (acc : PyDict) (k : String) (v : Val) (h : dGet k acc = some (some v)) :
    dGet k (cascadeRun keys acc strats) = some (some v) := by
  induction strats generalizing acc with
  | nil => simpa [cascadeRun]
  | cons st rest ih =>
    match st with
    | .error _ => simp only [cascadeRun]; exact ih acc h
    | .ok u =>
      simp only [cascadeRun]
      by_cases hf : allFilled keys (mergeUpdate acc u)
      · rw [if_pos hf]
        exact dGet_mergeUpdate_preserve u acc k v h
      · rw [if_neg hf]
        exact ih _ (dGet_mergeUpdate_preserve u acc k v h)

theorem accClean_cascadeRun (keys : List String) (strats : List Strat)
    (acc : PyDict) (h : accClean acc = true) :
    accClean (cascadeRun keys acc strats) = true := by
  induction strats generalizing acc with
  | nil => simpa [cascadeRun]
  | cons st rest ih =>
    match st with
    | .error _ => simp only [cascadeRun]; exact ih acc h
    | .ok u =>
      simp only [cascadeRun]
      by_cases hf : allFilled keys (mergeUpdate acc u)
      · rw [if_pos hf]
        exact accClean_mergeUpdate u acc h
      · rw [if_neg hf]
        exact ih _ (accClean_mergeUpdate u acc h)

theorem pyGet_cascadeRun (keys : List String) (strats : List Strat)
    (acc : PyDict) (k : String) (h : accClean acc = true) :
    pyGet (cascadeRun keys acc strats) k =
      firstSome (pyGet acc k) (cascadeApplied keys acc strats) k := by
  induction strats generalizing acc with
  | nil => simp [cascadeRun, cascadeApplied, firstSome]
  | cons st rest ih =>
    match st with
    | .error _ =>
      simp only [cascadeRun, cascadeApplied]
      exact ih acc h
    | .ok u =>
      simp only [cascadeRun, cascadeApplied]
      by_cases hf : allFilled keys (mergeUpdate acc u)
      · rw [if_pos hf, if_pos hf]
        rw [pyGet_mergeUpdate u acc k h]
        simp [firstSome]
      · rw [if_neg hf, if_neg hf]
        rw [ih _ (accClean_mergeUpdate u acc h)]
        rw [pyGet_mergeUpdate u acc k h]
        simp [firstSome]

theorem cascadeRun_error_skip (keys : List String) (xs ys : List Strat)
    (acc : PyDict) :
    cascadeRun keys acc (xs ++ Except.error () :: ys) =
      cascadeRun keys acc (xs ++ ys) := by
  induction xs generalizing acc with
  | nil => simp [cascadeRun]
  | cons st rest ih =>
    match st with
    | .error _ => simp only [List.cons_append, cascadeRun]; exact ih acc
    | .ok u =>
      simp only [List.cons_append, cascadeRun]
      by_cases hf : allFilled keys (mergeUpdate acc u)
      · rw [if_pos hf, if_pos hf]
      · rw [if_neg hf, if_neg hf]
        exact ih _

end CascadeLemmas

/-! ## Payment HTML multi-strategy extractor (payments/extract_payments.py)

`get_payment(id, subject, html_payment, to)` seeds the accumulator with
`{'id': id, 'subject': subject, 'state': "Aprovado"}` and runs the ten
sender-specific strategies through the cascade.  Each strategy is a function of
the parsed HTML; here an HTML input is represented by the list of outcomes the
ten strategies produce on it. -/

/-- `PAYMENT_KEYS = ['value', 'to', 'date', 'cus', 'state']`. -/
def PAYMENT_KEYS : List String := ["value", "to", "date", "cus", "state"]

/-- `get_payment`: seed `{'id', 'subject', 'state': "Aprovado"}`, then run the
strategy cascade (merge first-non-null, early stop when value/to/date/cus are
all non-null, exceptions skipped). -/
def get_payment (id subject : String) (strategies : List Strat) : PyDict :=
  cascadeRun PAYMENT_KEYS
    [("id", some (Val.s id)), ("subject", some (Val.s subject)),
     ("state", some (Val.s "Aprovado"))]
    strategies

/-- Truthiness of `d.get(k)` (`if not payment_data.get('state')`). -/
def optTruthy : Option Val → Bool
  | none => false
  | some (Val.s s) => s ≠ ""
  | some (Val.i n) => n ≠ 0
  | some (Val.q x) => x ≠ 0

/-- The body of `get_html_payment` after the Graph API fetch succeeded (the
fetch itself is an external collaborator): if the subject contains a rejection
keyword return `{}` before running any strategy, otherwise run `get_payment`
and default a falsy `state` to `"Aprobado"`. -/
def get_html_payment_core (id subject : String) (strategies : List Strat) :
    PyDict :=
  if strContains (pyLower subject) "rechazado" ||
     strContains (pyLower subject) "rechazada" then []
  else
    let pd := get_payment id subject strategies
    if optTruthy (pyGet pd "state") then pd
    else dictSet pd "state" (some (Val.s "Aprobado"))

/-! ## Notification token-state parser (notifications/extract_notificacions.py)

`extract_notification_email(body_preview)` splits the body on the triple
`"\r\n\r\n\r\n"` delimiter, whitespace-tokenizes the second piece, reads the
process verb from token index 1, extracts a `$`-anchored amount by regex from
the whole body, and runs one of five token automata.  Indexing `[1]` on a
split with no delimiter raises (modelled as `none`). -/

/-- A character of the regex class `[0-9.,]`. -/
def amtClass (c : Char) : Bool :=
  c.isDigit || c = '.' || c = ','

/-- `re.search(r'\$([0-9.,]+)', body)`: the first `$` followed by at least one
class character, taking the maximal run. -/
def amountSearch : List Char → Option (List Char)
  | [] => none
  | c :: cs =>
    if c = '$' then
      let run := cs.takeWhile amtClass
      if run.isEmpty then amountSearch cs else some run
    else amountSearch cs

/-- `value_str = amount_match.group(1).replace('.', '').replace(',', '')`. -/
def cleanAmount (ds : List Char) : String :=
  pyReplace (pyReplace (String.mk ds) "." "") "," ""

/-- The `Compraste` token loop (state `idx_wh`, accumulator `whe`). -/
def comprasteLoop (info : PyDict) (whe : String) (iw idx : Nat) :
    List String → PyDict
  | [] => info
  | v :: rest =>
    if idx = 3 then comprasteLoop info whe (iw + 1) (idx + 1) rest
    else if iw = 1 ∧ pyLower v = "con" then
      comprasteLoop (dictSet info "where" (some (Val.s (pyTrim whe)))) ""
        (iw + 1) (idx + 1) rest
    else if iw = 1 then comprasteLoop info (whe ++ v ++ " ") iw (idx + 1) rest
    else if iw = 2 ∧ pyLower v = "tu" then
      comprasteLoop info whe (iw + 1) (idx + 1) rest
    else if iw = 3 ∧ pyTrim (pyLower v) ≠ "el" then
      comprasteLoop info (whe ++ v ++ " ") iw (idx + 1) rest
    else if iw = 3 ∧ pyTrim (pyLower v) = "el" then
      comprasteLoop (dictSet info "with" (some (Val.s (pyReplace (pyTrim whe) "," ""))))
        "" (iw + 1) (idx + 1) rest
    else if iw = 4 then dictSet info "date" (some (Val.s v))
    else comprasteLoop info whe iw (idx + 1) rest

/-- The `Transferiste` branch (fixed token positions, guarded by length). -/
def transferisteFields (info : PyDict) (lines : List String) : PyDict :=
  if lines.length > 12 then
    let info := dictSet info "from"
      (some (Val.s (lines.getD 5 "" ++ " " ++ lines.getD 6 "")))
    let info := dictSet info "to"
      (some (Val.s (lines.getD 9 "" ++ " " ++ lines.getD 10 "")))
    dictSet info "date" (some (Val.s (lines.getD 12 "")))
  else info

/-- The `Pagaste` token loop (enumerate from index 2 over `lines[2:]`). -/
def pagasteLoop (info : PyDict) (whe : String) (iw idx : Nat) :
    List String → PyDict
  | [] => info
  | v :: rest =>
    if 4 ≤ idx ∧ v ≠ "desde" ∧ iw = 0 then
      pagasteLoop info (whe ++ v ++ " ") iw (idx + 1) rest
    else if 4 ≤ idx ∧ v = "desde" then
      pagasteLoop (dictSet info "to" (some (Val.s (pyTrim whe)))) "" 1 (idx + 1) rest
    else if pyLower v = "producto" ∧ iw = 1 then
      pagasteLoop info whe 2 (idx + 1) rest
    else if iw = 2 then
      pagasteLoop (dictSet info "with" (some (Val.s (pyTrim v)))) whe 3 (idx + 1) rest
    else if pyLower v = "el" ∧ iw = 3 then
      pagasteLoop info whe 4 (idx + 1) rest
    else if iw = 4 then dictSet info "date" (some (Val.s v))
    else pagasteLoop info whe iw (idx + 1) rest

/-- The `Recibiste` token loop (enumerate from index 5 over `lines[5:]`). -/
def recibisteLoop (info : PyDict) (whe : String) (iw idx : Nat) :
    List String → PyDict
  | [] => info
  | v :: rest =>
    if 7 ≤ idx ∧ v ≠ "en" ∧ iw = 0 then
      recibisteLoop info (whe ++ v ++ " ") iw (idx + 1) rest
    else if 7 ≤ idx ∧ v = "en" then
      recibisteLoop (dictSet info "from" (some (Val.s (pyTrim whe)))) "" 1 (idx + 1) rest
    else if pyLower v = "tu" ∧ iw = 1 then
      recibisteLoop info whe 2 (idx + 1) rest
    else if iw = 2 then
      if pyLower v = "el" then
        recibisteLoop (dictSet info "with" (some (Val.s (pyTrim whe)))) "" 3 (idx + 1) rest
      else recibisteLoop info (whe ++ v ++ " ") iw (idx + 1) rest
    else if iw = 3 then dictSet info "date" (some (Val.s v))
    else recibisteLoop info whe iw (idx + 1) rest

/-- The `Retiraste` token loop (enumerate from index 2 over `lines[2:]`). -/
def retirasteLoop (info : PyDict) (whe : String) (iw idx : Nat) :
    List String → PyDict
  | [] => info
  | v :: rest =>
    if 4 ≤ idx ∧ v ≠ "de" ∧ iw = 0 then
      retirasteLoop info (whe ++ v ++ " ") iw (idx + 1) rest
    else if 4 ≤ idx ∧ v = "de" then
      retirasteLoop (dictSet info "where" (some (Val.s (pyTrim whe)))) "" 1 (idx + 1) rest
    else if iw = 1 ∧ pyLower v = "tu" then
      retirasteLoop info whe 2 (idx + 1) rest
    else if iw = 2 then
      if pyLower v = "el" then
        retirasteLoop (dictSet info "with" (some (Val.s (pyTrim whe)))) "" 3 (idx + 1) rest
      else retirasteLoop info (whe ++ v ++ " ") iw (idx + 1) rest
    else if iw = 3 then dictSet info "date" (some (Val.s v))
    else retirasteLoop info whe iw (idx + 1) rest

/-- The body of `extract_notification_email` once the delimiter split
succeeded: `second` is `body.split("\r\n\r\n\r\n")[1]`; the amount regex
still scans the whole `body`. -/
def notifCore (body second : String) : PyDict :=
  let lines := pySplit second
  if lines.length < 2 then
    [("process", some (Val.s "unknown")),
     ("error", some (Val.s "Invalid body preview format"))]
  else
    let process := lines.getD 1 ""
    let info : PyDict := [("process", some (Val.s process))]
    let info :=
      match amountSearch body.data with
      | some ds => dictSet info "value" (some (Val.s (cleanAmount ds)))
      | none => info
    if process = "Compraste" then comprasteLoop info "" 0 0 lines
    else if process = "Transferiste" then transferisteFields info lines
    else if process = "Pagaste" then pagasteLoop info "" 0 2 (lines.drop 2)
    else if process = "Recibiste" then recibisteLoop info "" 0 5 (lines.drop 5)
    else if process = "Retiraste" then retirasteLoop info "" 0 2 (lines.drop 2)
    else info

/-- `extract_notification_email`.  Returns `none` when
`body.split("\r\n\r\n\r\n")[1]` raises `IndexError` (no delimiter). -/
def extract_notification_email (body : String) : Option PyDict :=
  match pySplitOn body "\r\n\r\n\r\n" with
  | _ :: second :: _ => some (notifCore body second)
  | _ => none

/-! ## Numeric parsing helpers -/

/-- Numeric value of a digit run. -/
def digitsToNat (ds : List Char) : Nat :=
  ds.foldl (fun a c => a * 10 + (c.toNat - 48)) 0

/-- Python `float(s)` on the decimal literals these extractors feed it
(optional sign, digits, at most one dot; exponent/inf forms never occur in the
monetary strings handled here).  `none` models `ValueError`. -/
def pyFloatParse (s : String) : Option ℚ :=
  let cs := s.data
  let neg : Bool := match cs with
    | '-' :: _ => true
    | _ => false
  let cs := match cs with
    | '-' :: rest => rest
    | '+' :: rest => rest
    | _ => cs
  let intPart := cs.takeWhile Char.isDigit
  let rest := cs.drop intPart.length
  let mag : Option ℚ :=
    match rest with
    | [] => if intPart.isEmpty then none else some (digitsToNat intPart : ℚ)
    | '.' :: frac =>
      if frac.all Char.isDigit ∧ ¬(intPart.isEmpty ∧ frac.isEmpty) then
        some ((digitsToNat intPart : ℚ) + (digitsToNat frac : ℚ) / (10 ^ frac.length))
      else none
    | _ => none
  mag.map (fun q => if neg then -q else q)

/-- Python `int(s)` (strict: optional sign then digits). `none` models
`ValueError`. -/
def pyIntParse (s : String) : Option Int :=
  let cs := (pyTrim s).data
  let (neg, ds) : Bool × List Char := match cs with
    | '-' :: rest => (true, rest)
    | '+' :: rest => (false, rest)
    | _ => (false, cs)
  if ds.isEmpty || ¬(ds.all Char.isDigit) then none
  else some (if neg then -(digitsToNat ds : Int) else (digitsToNat ds : Int))

/-! ## Statement PDF tabular parser (statements/extract_statements.py) -/

/-- `safe_float`: strip commas and minus signs, parse as float, negate when
the original string contains `-`; `0.0` on `ValueError`. -/
def safe_float (v : String) : ℚ :=
  let cleaned := pyReplace (pyReplace v "," "") "-" ""
  match pyFloatParse cleaned with
  | some q => if strContains v "-" then -q else q
  | none => 0

/-- One maximal run of `[\d,.]` characters at a time (`re.findall(r"[\d,.]+", line)`),
with `cur` the reversed run being accumulated. -/
def numRunsAux : List Char → List Char → List String
  | [], cur => if cur.isEmpty then [] else [String.mk cur.reverse]
  | c :: cs, cur =>
    if amtClass c then numRunsAux cs (c :: cur)
    else if cur.isEmpty then numRunsAux cs []
    else String.mk cur.reverse :: numRunsAux cs []

/-- `extract_numbers`: all `[\d,.]+` runs except bare `","` and `"."`. -/
def extract_numbers (line : String) : List String :=
  (numRunsAux line.data []).filter (fun x => x ≠ "," && x ≠ ".")

/-- An `InterestRecord` from the credit-card summary sub-table. -/
structure InterestRec where
  fecha : String
  descripcion : String
  valor_original : ℚ
  cargos_abonos : ℚ
  saldo_diferir : ℚ
deriving DecidableEq, Repr

/-- The mutable flag block of `parse_credit_card_summary`. -/
structure CCFlags where
  long_interes : Nat
  interes_corriente : Nat
  other_charges : Nat
  interest_payment : Bool
  service_fee : Bool
deriving DecidableEq, Repr

/-- The state threaded through the credit-card summary scan
(`summary`, `total`, `minimum`, `other_lines`, `flags`). -/
structure CCState where
  summary : PyDict
  total : PyDict
  minimum : PyDict
  other_lines : List InterestRec
  flags : CCFlags
deriving DecidableEq, Repr

def ccInit : CCState :=
  ⟨[], [], [], [], ⟨0, 0, 0, false, false⟩⟩

/-- Which bucket dict a summary-field row targets. -/
inductive Bucket where
  | btot
  | bmin
deriving DecidableEq, Repr

/-- The per-label toggle flags (`long_interes`, `interes_corriente`,
`other_charges`). -/
inductive FlagId where
  | longInteres
  | interesCorriente
  | otherCharges
deriving DecidableEq, Repr

def getFlagN (f : CCFlags) : FlagId → Nat
  | .longInteres => f.long_interes
  | .interesCorriente => f.interes_corriente
  | .otherCharges => f.other_charges

def setFlagN (f : CCFlags) : FlagId → Nat → CCFlags
  | .longInteres, n => { f with long_interes := n }
  | .interesCorriente, n => { f with interes_corriente := n }
  | .otherCharges, n => { f with other_charges := n }

/-- The `summary_fields` table, in source order. -/
def summaryFields : List (String × Bucket × String × Option FlagId) :=
  [("saldo anterior", .btot, "Saldo Anterior", none),
   ("compras del mes", .btot, "Compras del mes", none),
   ("intereses de mora", .btot, "Intereses de mora", some .longInteres),
   ("intereses de mora", .bmin, "Intereses de mora", some .longInteres),
   ("intereses corrientes", .btot, "Intereses corrientes", some .interesCorriente),
   ("intereses corrientes", .bmin, "Intereses corrientes", some .interesCorriente),
   ("avances", .btot, "Avances", none),
   ("cuota avances", .bmin, "Cuota avances", none),
   ("otros cargos", .btot, "Otros cargos", some .otherCharges),
   ("otros cargos", .bmin, "Otros cargos", some .otherCharges),
   ("pagos / abonos", .btot, "Pagos / abonos", none),
   ("cuota compras anteriores", .bmin, "Cuota compras anteriores", none),
   ("cuota compras del mes", .bmin, "Cuota compras del mes", none),
   ("saldo en mora", .bmin, "Saldo en mora", none)]

/-- Write `safe_float(numbers[0])` into the row's bucket dict. -/
def setBucket (st : CCState) (b : Bucket) (name : String) (q : ℚ) : CCState :=
  match b with
  | .btot => { st with total := dictSet st.total name (some (Val.q q)) }
  | .bmin => { st with minimum := dictSet st.minimum name (some (Val.q q)) }

/-- One row of the `summary_fields` loop applied to the current line. -/
def applyField (line : String) (st : CCState)
    (fld : String × Bucket × String × Option FlagId) : CCState :=
  match fld with
  | (key, bucket, name, flagK) =>
    if strContains (pyLower line) key then
      match extract_numbers line with
      | [] => st
      | n0 :: _ =>
        match flagK with
        | some fk =>
          if getFlagN st.flags fk = 0 then
            { setBucket st bucket name (safe_float n0) with
              flags := setFlagN st.flags fk 1 }
          else if getFlagN st.flags fk = 1 then
            { setBucket st bucket name (safe_float n0) with
              flags := setFlagN st.flags fk 0 }
          else st
        | none => setBucket st bucket name (safe_float n0)
    else st

/-- The body of `parse_credit_card_summary`'s per-line loop; `next?` is
`text_lines[index + 1]` when it exists. -/
def ccProcessLine (st : CCState) (line : String) (next? : Option String) :
    CCState :=
  let lower := pyLower line
  let st :=
    if strContains lower "cupo total" ∧ next?.isSome then
      match next? with
      | some nxt =>
        let values := pySplit nxt
        if 8 ≤ values.length then
          let s1 := dictSet st.summary "Cupo Total"
            (some (Val.q (safe_float (values.getD 1 ""))))
          let s2 := dictSet s1 "Cupo de Avances"
            (some (Val.q (safe_float (values.getD 3 ""))))
          let s3 := dictSet s2 "from" (some (Val.s (values.getD 5 "")))
          let s4 := dictSet s3 "to" (some (Val.s (values.getD 7 "")))
          { st with summary := s4 }
        else st
      | none => st
    else if st.flags.interest_payment then
      let parts := pySplit lower
      let st' :=
        if 6 ≤ parts.length then
          { st with other_lines := st.other_lines ++
              [⟨parts.getD 0 "", parts.getD 1 "" ++ " " ++ parts.getD 2 "",
                safe_float (parts.getD 3 ""), safe_float (parts.getD 4 ""),
                safe_float (parts.getD 5 "")⟩] }
        else st
      { st' with flags :=
          { st'.flags with interest_payment := false, service_fee := true } }
    else if st.flags.service_fee ∧ (pySplit lower).length = 8 then
      let parts := pySplit lower
      { st with other_lines := st.other_lines ++
          [⟨parts.getD 1 "",
            parts.getD 2 "" ++ " " ++ parts.getD 3 "" ++ " " ++ parts.getD 4 "",
            safe_float (parts.getD 5 ""), safe_float (parts.getD 6 ""),
            safe_float (parts.getD 7 "")⟩] }
    else if strContains lower "disponible total" ∧ next?.isSome then
      match next? with
      | some nxt =>
        let values := pySplit nxt
        if 5 ≤ values.length then
          let s1 := dictSet st.summary "Disponible Total"
            (some (Val.q (safe_float (values.getD 1 ""))))
          let s2 := dictSet s1 "Disponible de Avances"
            (some (Val.q (safe_float (values.getD 3 ""))))
          let s3 := dictSet s2 "pay before" (some (Val.s (values.getD 4 "")))
          { st with summary := s3 }
        else st
      | none => st
    else st
  let st := summaryFields.foldl (applyField line) st
  if strContains lower "facturadacargos y abonos saldo a diferir cuotas" then
    { st with flags := { st.flags with interest_payment := true } }
  else st

/-- Drive the summary scan over the lines, giving each step its successor
line for the `text_lines[index + 1]` lookaheads. -/
def ccSummaryGo (st : CCState) : List String → CCState
  | [] => st
  | line :: rest => ccSummaryGo (ccProcessLine st line rest.head?) rest

/-- `parse_credit_card_summary` (the dict `{'summary', 'total', 'minimum',
'other_lines'}` it returns is the final `CCState`). -/
def parse_credit_card_summary (text_lines : List String) : CCState :=
  ccSummaryGo ccInit text_lines

/-- The eleven known loan-statement concepts of `parse_credit_information`. -/
def creditConcepts : List String :=
  ["FECHA DE DESEMBOLSO", "VALOR INICIAL", "FECHA CORTE EXTRACTO",
   "SALDO DE CAPITAL", "TASA DE INTERÉS E.A.", "CUOTA NÚMERO",
   "TASA MORA A LA FECHA", "SALDO EN MORA CAPITAL",
   "Nº DE CUOTAS EN MORA", "FECHA ÚLTIMO PAGO", "MORA DESDE"]

/-- One step of `parse_credit_information`'s inner loop at index `idx`: join
`new_line[idx:-1]` and, when it is a known concept, map it to the line's last
token. -/
def creditStep (toks : List String) (d : PyDict) (idx : Nat) : PyDict :=
  if String.intercalate " " (toks.dropLast.drop idx) ∈ creditConcepts then
    dictSet d (String.intercalate " " (toks.dropLast.drop idx))
      (some (Val.s (toks.getLastD "")))
  else d

/-- One line of `parse_credit_information`'s scan: `idx` runs from
`len(new_line)` down to `0`. -/
def creditScanLine (d : PyDict) (line : String) : PyDict :=
  let toks := pySplitOn line " "
  (List.range (toks.length + 1)).reverse.foldl (creditStep toks) d

/-- The matching pass of `parse_credit_information` over all lines. -/
def creditScan (text_lines : List String) : PyDict :=
  text_lines.foldl creditScanLine []

/-- The defaulting pass: every concept still absent is set to `''`. -/
def creditDefaults (cs : List String) (d : PyDict) : PyDict :=
  cs.foldl
    (fun d c => if (dGet c d).isSome then d else dictSet d c (some (Val.s "")))
    d

/-- `parse_credit_information`: the scan, then every unmatched concept
defaulted to `''`. -/
def parse_credit_information (text_lines : List String) : PyDict :=
  creditDefaults creditConcepts (creditScan text_lines)

/-! ## PDF invoice line scanner `_extract_with_pypdf2`
(invoices/extract_invoice_attachment.py).

The PDF decode (`PdfReader`, decryption) is an external effect; the scan below
is the per-line loop over the extracted text. -/

/-- The per-line update of `_extract_with_pypdf2` (the "total" and
"date/fecha" branches). -/
def pypdf2Step (info : PyDict) (line : String) : PyDict :=
  let l := pyTrim line
  if strContains (pyLower l) "total" then
    let toks := pySplitOn l " "
    let lastTok := toks.getLastD ""
    let v := pyReplace (pyReplace lastTok "$" "") "," ""
    if (pyFloatParse v).isSome then dictSet info "Total" (some (Val.s lastTok))
    else info
  else if strContains (pyLower l) "date" || strContains (pyLower l) "fecha" then
    let toks := pySplitOn l " "
    let v := pyReplace (toks.getLastD "") ":" ""
    if strContains v "/" || strContains v "-" then
      dictSet info "Date" (some (Val.s v))
    else info
  else info

/-- The loop of `_extract_with_pypdf2` over the extracted text lines; returns
`info` as soon as it holds two fields, `{}` if the lines run out. -/
def pypdf2Loop (info : PyDict) : List String → PyDict
  | [] => []
  | line :: rest =>
    if (pypdf2Step info line).length = 2 then pypdf2Step info line
    else pypdf2Loop (pypdf2Step info line) rest

/-- `_extract_with_pypdf2` on the text already extracted from the PDF. -/
def _extract_with_pypdf2 (text_lines : List String) : PyDict :=
  pypdf2Loop [] text_lines

/-- `INVOICE_INFO = {"Total", "Date"}` and the PDF cascade
`extract_invoice_from_pdf`: same loop as `get_payment`, empty seed. -/
def INVOICE_INFO : List String := ["Total", "Date"]

/-- `extract_invoice_from_pdf` with the four PDF strategies given by their
outcomes on the document. -/
def extract_invoice_from_pdf (strategies : List Strat) : PyDict :=
  cascadeRun INVOICE_INFO [] strategies

/-! ## Zipped-XML (UBL) invoice extraction
(invoices/extract_invoice_attachment.py: `_extract_product_info`,
`get_from_xml`).

`xmltodict` produces nested dicts/lists/strings; `XVal` is that value space.
Python exceptions are distinguished because the code catches `KeyError`,
`ValueError` and `TypeError` selectively. -/

/-- A parsed-XML value as produced by `xmltodict`. -/
inductive XVal where
  | xs : String → XVal
  | xd : List (String × XVal) → XVal
  | xl : List XVal → XVal

/-- The Python exceptions the invoice code discriminates on. -/
inductive PyExc where
  | keyError (k : String)
  | valueError
  | typeError
  | indexError
deriving DecidableEq, Repr

/-- Lookup in an `xmltodict` dict node. -/
def xLookup (k : String) : List (String × XVal) → Option XVal
  | [] => none
  | e :: es => if e.1 = k then some e.2 else xLookup k es

/-- `d[k]` on a dict node: `KeyError` when absent. -/
def xSubD (es : List (String × XVal)) (k : String) : Except PyExc XVal :=
  match xLookup k es with
  | some v => .ok v
  | none => .error (.keyError k)

/-- `v[k]` with a string key: `KeyError` on dicts, `TypeError` on lists and
strings. -/
def xSub : XVal → String → Except PyExc XVal
  | .xd es, k => xSubD es k
  | _, _ => .error .typeError

/-- `v[0]`: head of a list (`IndexError` when empty), first character of a
string (`IndexError` when empty), `KeyError` on a string-keyed dict. -/
def xIdx0 : XVal → Except PyExc XVal
  | .xl (x :: _) => .ok x
  | .xl [] => .error .indexError
  | .xd _ => .error (.keyError "0")
  | .xs str =>
    match str.data with
    | [] => .error .indexError
    | c :: _ => .ok (.xs (String.mk [c]))

/-- `float(v)`: parse a string node, `TypeError` on dict/list nodes. -/
def pyFloatX : XVal → Except PyExc ℚ
  | .xs str =>
    match pyFloatParse str with
    | some q => .ok q
    | none => .error .valueError
  | _ => .error .typeError

/-- `int(v)` on `product_id` (`None` → `TypeError`, non-numeric string →
`ValueError`, dict/list → `TypeError`). -/
def pyIntXOpt : Option XVal → Except PyExc Int
  | none => .error .typeError
  | some (.xs str) =>
    match pyIntParse str with
    | some n => .ok n
    | none => .error .valueError
  | some _ => .error .typeError

/-- Python truthiness of an `xmltodict` node (`if tax_total:`). -/
def xTruthy : XVal → Bool
  | .xs str => str ≠ ""
  | .xd es => ¬es.isEmpty
  | .xl ls => ¬ls.isEmpty

/-- `float(tax['cac:TaxSubtotal']['cbc:TaxAmount']['#text'])`. -/
def taxEntryAmt (t : XVal) : Except PyExc ℚ := do
  let a ← xSub t "cac:TaxSubtotal"
  let b ← xSub a "cbc:TaxAmount"
  let c ← xSub b "#text"
  pyFloatX c

/-- The list-shaped `cac:TaxTotal` loop: each entry's amount is added, and a
`KeyError`/`ValueError` for an entry is swallowed (`except (KeyError,
ValueError): pass`); other exceptions propagate. -/
def taxFold (acc : ℚ) : List XVal → Except PyExc ℚ
  | [] => .ok acc
  | t :: ts =>
    match taxEntryAmt t with
    | .ok q => taxFold (acc + q) ts
    | .error (.keyError _) => taxFold acc ts
    | .error .valueError => taxFold acc ts
    | .error e => .error e

/-- The single-object `cac:TaxTotal` branch: `taxes` keeps its initial `0.0`
when the entry fails with `KeyError`/`ValueError`. -/
def taxSingle (tv : XVal) : Except PyExc ℚ :=
  match taxEntryAmt tv with
  | .ok q => .ok q
  | .error (.keyError _) => .ok 0
  | .error .valueError => .ok 0
  | .error e => .error e

/-- The whole `# Extract taxes` paragraph of `_extract_product_info`, as a
function of `product.get('cac:TaxTotal')`. -/
def taxesOf (taxTot : Option XVal) : Except PyExc ℚ :=
  match taxTot with
  | none => .ok 0
  | some tv =>
    if xTruthy tv then
      match tv with
      | .xl ts => taxFold 0 ts
      | _ => taxSingle tv
    else .ok 0

/-- The value `int()` is applied to for the product id:
`product.get('cbc:ID')`, descending into `'#text'` when it is a dict. -/
def productIdVal (product : List (String × XVal)) : Option XVal :=
  match xLookup "cbc:ID" product with
  | some (.xd es) => xLookup "#text" es
  | other => other

/-- Errors raised by `_extract_product_info`: the two `ValueError`s it raises
itself, or an underlying exception it does not catch. -/
inductive ExErr where
  | invalidProductId
  | missingProductField (k : String)
  | pyexc (e : PyExc)
deriving DecidableEq, Repr

/-- One extracted line item. -/
structure ProductRec where
  product_id : Int
  quantity : ℚ
  subtotal : ℚ
  description : XVal
  price : ℚ
  taxes : ℚ

/-- `_extract_product_info`: product id (any failure → "Invalid product ID in
XML"), then quantity/subtotal/description/price in source order (`KeyError` →
"Missing required field in product", float `ValueError`/`TypeError`
propagate), then the tax paragraph. -/
def _extract_product_info (product : List (String × XVal)) :
    Except ExErr ProductRec :=
  match pyIntXOpt (productIdVal product) with
  | .error _ => .error .invalidProductId
  | .ok pidN =>
    match (do
        let qv ← xSubD product "cbc:InvoicedQuantity"
        let qt ← xSub qv "#text"
        let q ← pyFloatX qt
        let sv ← xSubD product "cbc:LineExtensionAmount"
        let st0 ← xSub sv "#text"
        let s0 ← pyFloatX st0
        let iv ← xSubD product "cac:Item"
        let dsv ← xSub iv "cbc:Description"
        let pv ← xSubD product "cac:Price"
        let pav ← xSub pv "cbc:PriceAmount"
        let pat ← xSub pav "#text"
        let p0 ← pyFloatX pat
        pure (q, s0, dsv, p0) : Except PyExc (ℚ × ℚ × XVal × ℚ)) with
    | .error (.keyError k) => .error (.missingProductField k)
    | .error e => .error (.pyexc e)
    | .ok (q, s0, dsv, p0) =>
      match taxesOf (xLookup "cac:TaxTotal" product) with
      | .error e => .error (.pyexc e)
      | .ok tx => .ok ⟨pidN, q, s0, dsv, p0, tx⟩

/-- The outcome of `get_from_xml` for a document: a structured
"Missing required XML field" `ValueError` (from `except KeyError`), an
"Invalid data in XML" `ValueError` (from `except (ValueError, TypeError)`),
or an exception no handler catches (`IndexError`/`AttributeError`). -/
inductive GErr where
  | missingXmlField (k : String)
  | invalidData
  | uncaught
deriving DecidableEq, Repr

/-- How an exception escaping the `try` block of `get_from_xml` maps through
its `except` clauses. -/
def liftExc : PyExc → GErr
  | .keyError k => .missingXmlField k
  | .valueError => .invalidData
  | .typeError => .invalidData
  | .indexError => .uncaught

/-- How an error of `_extract_product_info` (a `ValueError` it raised, or an
uncaught exception) maps through `get_from_xml`'s handlers. -/
def liftProdErr : ExErr → GErr
  | .invalidProductId => .invalidData
  | .missingProductField _ => .invalidData
  | .pyexc e => liftExc e

/-- The extracted invoice (`InvoiceData.to_dict()`). -/
structure InvoiceData where
  period : XVal
  products : List ProductRec
  discount : ℚ
  total : ℚ

/-- The authorization-period chain
`invoice['ext:UBLExtensions']['ext:UBLExtension'][0]['ext:ExtensionContent']
['sts:DianExtensions']['sts:InvoiceControl']['sts:AuthorizationPeriod']`. -/
def periodOfV (invV : XVal) : Except PyExc XVal := do
  let a1 ← xSub invV "ext:UBLExtensions"
  let a2 ← xSub a1 "ext:UBLExtension"
  let a3 ← xIdx0 a2
  let a4 ← xSub a3 "ext:ExtensionContent"
  let a5 ← xSub a4 "sts:DianExtensions"
  let a6 ← xSub a5 "sts:InvoiceControl"
  xSub a6 "sts:AuthorizationPeriod"

/-- `invoice['cac:InvoiceLine']` dispatch: a list of products (a non-dict
element makes `product.get` raise `AttributeError`, caught by nothing), a
single dict product, or `ValueError("Invalid invoice lines structure")`. -/
def invoiceLinesProducts : XVal → Except GErr (List ProductRec)
  | .xl ls =>
    ls.foldr
      (fun x acc =>
        match x with
        | .xd es =>
          match _extract_product_info es with
          | .ok p => acc.map (fun ps => p :: ps)
          | .error e => .error (liftProdErr e)
        | _ => .error .uncaught)
      (.ok [])
  | .xd es =>
    match _extract_product_info es with
    | .ok p => .ok [p]
    | .error e => .error (liftProdErr e)
  | _ => .error .invalidData

/-- `get_from_xml`. -/
def get_from_xml (xml : List (String × XVal)) : Except GErr InvoiceData :=
  match xSubD xml "Invoice" with
  | .error e => .error (liftExc e)
  | .ok invV =>
    match periodOfV invV with
    | .error e => .error (liftExc e)
    | .ok per =>
      match xSub invV "cac:InvoiceLine" with
      | .error e => .error (liftExc e)
      | .ok linesV =>
        match invoiceLinesProducts linesV with
        | .error g => .error g
        | .ok prods =>
          match (do
              let lm ← xSub invV "cac:LegalMonetaryTotal"
              let da ← xSub lm "cbc:AllowanceTotalAmount"
              let dat ← xSub da "#text"
              let disc ← pyFloatX dat
              let pa ← xSub lm "cbc:PayableAmount"
              let pat ← xSub pa "#text"
              let tot ← pyFloatX pat
              pure (disc, tot) : Except PyExc (ℚ × ℚ)) with
          | .error e => .error (liftExc e)
          | .ok (disc, tot) => .ok ⟨per, prods, disc, tot⟩

/-! ## Lemmas about the notification branches, the PDF line scanner and the
loan-concept scan -/

section NotifLemmas

theorem comprasteLoop_pyGet (toks : List String) (info : PyDict) (whe : String)
    (iw idx : Nat) (k : String) (h1 : k ≠ "where") (h2 : k ≠ "with")
    (h3 : k ≠ "date") :
    pyGet (comprasteLoop info whe iw idx toks) k = pyGet info k := by
  induction toks generalizing info whe iw idx with
  | nil => simp [comprasteLoop]
  | cons v rest ih =>
    simp only [comprasteLoop]
    repeat' split
    all_goals simp [ih, pyGet_dictSet, h1, h2, h3]

theorem transferisteFields_pyGet (info : PyDict) (lines : List String)
    (k : String) (h1 : k ≠ "from") (h2 : k ≠ "to") (h3 : k ≠ "date") :
    pyGet (transferisteFields info lines) k = pyGet info k := by
  simp only [transferisteFields]
  split
  all_goals simp [pyGet_dictSet, h1, h2, h3]

theorem pagasteLoop_pyGet (toks : List String) (info : PyDict) (whe : String)
    (iw idx : Nat) (k : String) (h1 : k ≠ "to") (h2 : k ≠ "with")
    (h3 : k ≠ "date") :
    pyGet (pagasteLoop info whe iw idx toks) k = pyGet info k := by
  induction toks generalizing info whe iw idx with
  | nil => simp [pagasteLoop]
  | cons v rest ih =>
    simp only [pagasteLoop]
    repeat' split
    all_goals simp [ih, pyGet_dictSet, h1, h2, h3]

theorem recibisteLoop_pyGet (toks : List String) (info : PyDict) (whe : String)
    (iw idx : Nat) (k : String) (h1 : k ≠ "from") (h2 : k ≠ "with")
    (h3 : k ≠ "date") :
    pyGet (recibisteLoop info whe iw idx toks) k = pyGet info k := by
  induction toks generalizing info whe iw idx with
  | nil => simp [recibisteLoop]
  | cons v rest ih =>
    simp only [recibisteLoop]
    repeat' split
    all_goals simp [ih, pyGet_dictSet, h1, h2, h3]

theorem retirasteLoop_pyGet (toks : List String) (info : PyDict) (whe : String)
    (iw idx : Nat) (k : String) (h1 : k ≠ "where") (h2 : k ≠ "with")
    (h3 : k ≠ "date") :
    pyGet (retirasteLoop info whe iw idx toks) k = pyGet info k := by
  induction toks generalizing info whe iw idx with
  | nil => simp [retirasteLoop]
  | cons v rest ih =>
    simp only [retirasteLoop]
    repeat' split
    all_goals simp [ih, pyGet_dictSet, h1, h2, h3]

end NotifLemmas

section ScannerLemmas

/-- Writing a string value preserves "all stored values are strings". -/
theorem dictSet_strVals (d : PyDict) (k0 s0 : String)
    (hd : ∀ k' v', dGet k' d = some v' → ∃ s', v' = some (Val.s s'))
    (k' : String) (v' : Option Val)
    (hv' : dGet k' (dictSet d k0 (some (Val.s s0))) = some v') :
    ∃ s', v' = some (Val.s s') := by
  rw [dGet_dictSet] at hv'
  by_cases he : k' = k0
  · rw [if_pos he] at hv'
    exact ⟨s0, by simpa using hv'.symm⟩
  · rw [if_neg he] at hv'
    exact hd k' v' hv'

/-- Every value a `pypdf2Step` stores is a string. -/
theorem pypdf2Step_strVals (info : PyDict) (line : String)
    (h : ∀ k v, dGet k info = some v → ∃ s', v = some (Val.s s'))
    (k : String) (v : Option Val) (hv : dGet k (pypdf2Step info line) = some v) :
    ∃ s', v = some (Val.s s') := by
  simp only [pypdf2Step] at hv
  repeat' split at hv
  all_goals first
    | exact h k v hv
    | exact dictSet_strVals _ _ _ h k v hv

/-- Every value the PDF line scanner stores is a string. -/
theorem pypdf2Loop_strVals (ls : List String) (info : PyDict)
    (h : ∀ k v, dGet k info = some v → ∃ s', v = some (Val.s s'))
    (k : String) (v : Option Val) (hv : dGet k (pypdf2Loop info ls) = some v) :
    ∃ s', v = some (Val.s s') := by
  induction ls generalizing info with
  | nil => simp [pypdf2Loop, dGet] at hv
  | cons line rest ih =>
    simp only [pypdf2Loop] at hv
    split at hv
    · exact pypdf2Step_strVals info line h k v hv
    · exact ih (pypdf2Step info line) (pypdf2Step_strVals info line h) hv

/-- A `creditStep` writes only concept keys. -/
theorem creditStep_keys (toks : List String) (d : PyDict) (idx : Nat)
    (k : String) (h : (dGet k (creditStep toks d idx)).isSome = true) :
    k ∈ creditConcepts ∨ (dGet k d).isSome = true := by
  unfold creditStep at h
  split at h
  · rw [dGet_dictSet] at h
    by_cases he : k = String.intercalate " " (toks.dropLast.drop idx)
    · rw [he]
      left
      assumption
    · rw [if_neg he] at h
      right
      exact h
  · right
    exact h

theorem creditFold_keys (toks : List String) (is : List Nat) (d : PyDict)
    (k : String) (h : (dGet k (is.foldl (creditStep toks) d)).isSome = true) :
    k ∈ creditConcepts ∨ (dGet k d).isSome = true := by
  induction is generalizing d with
  | nil => right; simpa using h
  | cons i rest ih =>
    simp only [List.foldl_cons] at h
    rcases ih (creditStep toks d i) h with hc | hd
    · left; exact hc
    · exact creditStep_keys toks d i k hd

theorem creditScanLine_keys (d : PyDict) (line : String) (k : String)
    (h : (dGet k (creditScanLine d line)).isSome = true) :
    k ∈ creditConcepts ∨ (dGet k d).isSome = true := by
  unfold creditScanLine at h
  exact creditFold_keys _ _ d k h

theorem creditScan_keys (lines : List String) (k : String)
    (h : (dGet k (creditScan lines)).isSome = true) : k ∈ creditConcepts := by
  unfold creditScan at h
  have main : ∀ (ls : List String) (d : PyDict),
      (dGet k (ls.foldl creditScanLine d)).isSome = true →
      k ∈ creditConcepts ∨ (dGet k d).isSome = true := by
    intro ls
    induction ls with
    | nil => intro d hd; right; simpa using hd
    | cons l rest ih =>
      intro d hd
      simp only [List.foldl_cons] at hd
      rcases ih (creditScanLine d l) hd with hc | hd2
      · left; exact hc
      · exact creditScanLine_keys d l k hd2
  rcases main lines [] h with hc | habs
  · exact hc
  · simp [dGet] at habs

/-- The defaulting fold never disturbs an existing entry. -/
theorem creditDefaults_preserve (cs : List String) (d : PyDict) (k : String)
    (w : Option Val) (h : dGet k d = some w) :
    dGet k (creditDefaults cs d) = some w := by
  induction cs generalizing d with
  | nil => simpa [creditDefaults]
  | cons c rest ih =>
    simp only [creditDefaults, List.foldl_cons] at ih ⊢
    by_cases hc : (dGet c d).isSome
    · rw [if_pos hc]
      exact ih d h
    · rw [if_neg hc]
      apply ih
      rw [dGet_dictSet]
      by_cases he : k = c
      · exfalso
        rw [he] at h
        simp [h] at hc
      · rw [if_neg he]
        exact h

/-- After the defaulting fold every listed concept is present. -/
theorem creditDefaults_fills (cs : List String) (d : PyDict) (k : String)
    (hk : k ∈ cs) : (dGet k (creditDefaults cs d)).isSome = true := by
  induction cs generalizing d with
  | nil => simp at hk
  | cons c rest ih =>
    simp only [creditDefaults, List.foldl_cons] at ih ⊢
    rcases List.mem_cons.mp hk with he | hr
    · subst he
      by_cases hc : (dGet k d).isSome
      · rw [if_pos hc]
        obtain ⟨w, hw⟩ := Option.isSome_iff_exists.mp hc
        have := creditDefaults_preserve rest d k w hw
        simp only [creditDefaults] at this
        simp [this]
      · rw [if_neg hc]
        have hw : dGet k (dictSet d k (some (Val.s ""))) = some (some (Val.s "")) := by
          rw [dGet_dictSet]; simp
        have := creditDefaults_preserve rest _ k _ hw
        simp only [creditDefaults] at this
        simp [this]
    · by_cases hc : (dGet c d).isSome
      · rw [if_pos hc]; exact ih d hr
      · rw [if_neg hc]; exact ih _ hr

/-- A concept absent before the defaulting fold comes out as `''`. -/
theorem creditDefaults_empty (cs : List String) (d : PyDict) (k : String)
    (hk : k ∈ cs) (h : dGet k d = none) :
    dGet k (creditDefaults cs d) = some (some (Val.s "")) := by
  induction cs generalizing d with
  | nil => simp at hk
  | cons c rest ih =>
    simp only [creditDefaults, List.foldl_cons] at ih ⊢
    rcases List.mem_cons.mp hk with he | hr
    · subst he
      rw [if_neg (by simp [h])]
      have hw : dGet k (dictSet d k (some (Val.s ""))) = some (some (Val.s "")) := by
        rw [dGet_dictSet]; simp
      have := creditDefaults_preserve rest _ k _ hw
      simp only [creditDefaults] at this
      exact this
    · by_cases hc : (dGet c d).isSome
      · rw [if_pos hc]; exact ih d hr h
      · rw [if_neg hc]
        by_cases he : k = c
        · subst he
          have hw : dGet k (dictSet d k (some (Val.s ""))) = some (some (Val.s "")) := by
            rw [dGet_dictSet]; simp
          have := creditDefaults_preserve rest _ k _ hw
          simp only [creditDefaults] at this
          exact this
        · apply ih _ hr
          rw [dGet_dictSet, if_neg he]
          exact h

/-- The defaulting fold introduces only listed keys. -/
theorem creditDefaults_keys (cs : List String) (d : PyDict) (k : String)
    (h : (dGet k (creditDefaults cs d)).isSome = true) :
    k ∈ cs ∨ (dGet k d).isSome = true := by
  induction cs generalizing d with
  | nil => right; simpa [creditDefaults] using h
  | cons c rest ih =>
    simp only [creditDefaults, List.foldl_cons] at ih h
    by_cases hc : (dGet c d).isSome
    · rw [if_pos hc] at h
      rcases ih d h with hr | hd
      · exact Or.inl (List.mem_cons_of_mem c hr)
      · right; exact hd
    · rw [if_neg hc] at h
      rcases ih _ h with hr | hd
      · exact Or.inl (List.mem_cons_of_mem c hr)
      · rw [dGet_dictSet] at hd
        by_cases he : k = c
        · exact Or.inl (he ▸ List.mem_cons_self c rest)
        · rw [if_neg he] at hd
          right; exact hd

end ScannerLemmas

/-! ## Claim theorems -/

/-- Claim C1: for every ordered list of extraction strategies and every input,
the cascade's merged result assigns to each field the first non-null value
produced for that field across the strategies it applies, in order (the early
stop ends the cascade once all required fields are non-null); a later
strategy's value for a field never overwrites an earlier non-null value.
`accClean acc` says the seed stores no explicit `None` (true of both seeds in
the code: `{'id', 'subject', 'state'}` and `{}`). -/
theorem c1_cascade_first_success_wins (keys : List String) (acc : PyDict)
    (strats : List Strat) (k : String) (h : accClean acc = true) :
    pyGet (cascadeRun keys acc strats) k =
      firstSome (pyGet acc k) (cascadeApplied keys acc strats) k :=
  pyGet_cascadeRun keys strats acc k h

/-- Witness for C1, on the spec's own example: strategy 1 yields
`{value: 100}`, strategy 2 yields `{value: 200, to: "X"}`; the merged result
keeps `value = 100` and takes `to = "X"`. -/
theorem c1_witness :
    pyGet (cascadeRun PAYMENT_KEYS []
        [Except.ok [("value", some (Val.i 100))],
         Except.ok [("value", some (Val.i 200)), ("to", some (Val.s "X"))]])
      "value" = some (Val.i 100) ∧
    pyGet (cascadeRun PAYMENT_KEYS []
        [Except.ok [("value", some (Val.i 100))],
         Except.ok [("value", some (Val.i 200)), ("to", some (Val.s "X"))]])
      "to" = some (Val.s "X") := by
  constructor
  · exact (c1_cascade_first_success_wins PAYMENT_KEYS [] _ "value" rfl).trans
      (by decide)
  · exact (c1_cascade_first_success_wins PAYMENT_KEYS [] _ "to" rfl).trans
      (by decide)

/-- Claim C2: an exception raised by any single strategy inside a cascade
(payment HTML cascade or invoice PDF cascade) is caught and contributes
nothing, and the cascade proceeds with the remaining strategies — the run is
identical to the run without the raising strategy, and no exception
propagates (both functions are total). -/
theorem c2_strategy_exception_skipped :
    (∀ (id subject : String) (xs ys : List Strat),
        get_payment id subject (xs ++ Except.error () :: ys) =
          get_payment id subject (xs ++ ys)) ∧
    (∀ xs ys : List Strat,
        extract_invoice_from_pdf (xs ++ Except.error () :: ys) =
          extract_invoice_from_pdf (xs ++ ys)) :=
  ⟨fun _ _ xs ys => cascadeRun_error_skip PAYMENT_KEYS xs ys _,
   fun xs ys => cascadeRun_error_skip INVOICE_INFO xs ys []⟩

/-- Claim C10: for every input to `get_payment`, the `state` field of the
returned record equals the initial literal `"Aprovado"`: `state` is pre-set to
a non-null value before the cascade runs and the merge only fills null fields,
so no strategy's `state` value is ever written. -/
theorem c10_state_always_aprovado (id subject : String)
    (strats : List Strat) :
    pyGet (get_payment id subject strats) "state" = some (Val.s "Aprovado") := by
  unfold get_payment pyGet
  rw [dGet_cascadeRun_preserve PAYMENT_KEYS strats _ "state" (Val.s "Aprovado")
    (by rfl)]
  rfl

/-- Claim C5 (amended): a field no strategy populated is OMITTED from the
final mapping, not stored as an explicit null: the accumulator never stores
`None` (first conjunct), and on an input where every strategy reports only
nulls the payment record's keys are exactly `id`, `subject`, `state` — the
declared keys `value`/`to`/`date`/`cus` are absent rather than null. -/
theorem c5_unfilled_fields_are_omitted :
    (∀ (id subject : String) (strats : List Strat),
        accClean (get_payment id subject strats) = true) ∧
    (get_payment "m1" "Pago exitoso"
        [Except.ok [("value", none), ("to", none), ("date", none),
                    ("cus", none), ("state", none)]]).map Prod.fst =
      ["id", "subject", "state"] := by
  constructor
  · intro id subject strats
    exact accClean_cascadeRun PAYMENT_KEYS strats _ rfl
  · decide

/-- Counterexample to Claim C5 as stated: on a document whose strategies all
report nulls (e.g. empty HTML: every payment strategy returns `{}` or an
all-`None` dict), the declared field `value` is not present in the final
mapping at all — it is omitted, not explicitly null. -/
theorem c5_counterexample :
    "value" ∉ (get_payment "m1" "Pago exitoso"
        [Except.ok [("value", none), ("to", none), ("date", none),
                    ("cus", none), ("state", none)]]).map Prod.fst := by
  decide

/-- Claim C6: for every payment message whose subject contains a rejection
keyword (`rechazado`/`rechazada`, case-insensitively), the extractor returns
an empty record, for every possible strategy behaviour (so no strategy result
can influence the output). -/
theorem c6_rejected_subject_short_circuits (id subject : String)
    (strats : List Strat)
    (h : (strContains (pyLower subject) "rechazado" ||
          strContains (pyLower subject) "rechazada") = true) :
    get_html_payment_core id subject strats = [] := by
  unfold get_html_payment_core
  rw [if_pos h]

/-- Witness for C6: subject `"Pago rechazado"` short-circuits to `{}` even
though a strategy would have produced a full record. -/
theorem c6_witness :
    get_html_payment_core "m7" "Pago rechazado"
      [Except.ok [("value", some (Val.i 5)), ("to", some (Val.s "T")),
                  ("date", some (Val.s "d")), ("cus", some (Val.s "c"))]] = [] :=
  c6_rejected_subject_short_circuits "m7" "Pago rechazado" _ (by decide)

/-- Claim C3 (code bug): on a statement whose text contains the duplicated
label "INTERESES DE MORA" on two lines (first occurrence value 100, second
50), the code does NOT put the first value in the total bucket and the second
in the minimum bucket.  Both `summary_fields` rows for the label run on each
line: the first row writes the bucket `total` and sets the flag to 1, and the
second row immediately fires with flag 1, writing the same line's value to
`minimum` and resetting the flag — so after both lines each bucket holds the
SECOND occurrence's value 50 (the spec expects total = 100, minimum = 50). -/
theorem c3_toggle_bug_eval :
    dGet "Intereses de mora"
      (parse_credit_card_summary
        ["INTERESES DE MORA 100", "INTERESES DE MORA 50"]).total =
      some (some (Val.q 50)) ∧
    dGet "Intereses de mora"
      (parse_credit_card_summary
        ["INTERESES DE MORA 100", "INTERESES DE MORA 50"]).minimum =
      some (some (Val.q 50)) := by
  constructor <;> decide

/-- Claim C7: for every loan-statement text, the credit-information output
contains all eleven known concept keys (and only them), and each concept the
scan never matched is mapped to the empty string — the output schema is
identical across statements. -/
theorem c7_loan_concepts_stable (lines : List String) :
    creditConcepts.length = 11 ∧
    (∀ c ∈ creditConcepts,
        (dGet c (parse_credit_information lines)).isSome = true) ∧
    (∀ c ∈ creditConcepts, dGet c (creditScan lines) = none →
        dGet c (parse_credit_information lines) = some (some (Val.s ""))) ∧
    (∀ k, (dGet k (parse_credit_information lines)).isSome = true →
        k ∈ creditConcepts) := by
  refine ⟨by decide, ?_, ?_, ?_⟩
  · intro c hc
    exact creditDefaults_fills creditConcepts _ c hc
  · intro c hc hnone
    exact creditDefaults_empty creditConcepts _ c hc hnone
  · intro k hk
    rcases creditDefaults_keys creditConcepts _ k hk with hm | hs
    · exact hm
    · exact creditScan_keys lines k hs

/-- Witness for C7 on a concrete statement: `SALDO DE CAPITAL` is matched
with value `123`, while `MORA DESDE`, never matched, is present and empty. -/
theorem c7_witness :
    (dGet "MORA DESDE"
      (parse_credit_information ["xx SALDO DE CAPITAL 123"])).isSome = true ∧
    dGet "MORA DESDE" (parse_credit_information ["xx SALDO DE CAPITAL 123"]) =
      some (some (Val.s "")) := by
  refine ⟨(c7_loan_concepts_stable _).2.1 "MORA DESDE" (by decide),
    (c7_loan_concepts_stable _).2.2.1 "MORA DESDE" (by decide) (by decide)⟩

/-- When the delimiter split yields at least two pieces, the parser runs
`notifCore` on the second piece. -/
theorem extract_eq_core (body pre second : String) (rest2 : List String)
    (hsplit : pySplitOn body "\r\n\r\n\r\n" = pre :: second :: rest2) :
    extract_notification_email body = some (notifCore body second) := by
  unfold extract_notification_email
  rw [hsplit]

/-- Claim C4 (amended): with the header delimiter present, a token sequence of
fewer than two tokens yields `{process: "unknown", error: "Invalid body
preview format"}` — but an unrecognized process verb does NOT: the result then
carries the verb itself as `process` (plus a `value` when the amount regex
matches) and has no `error` key. -/
theorem c4_short_or_unknown_verb (body pre second : String)
    (rest2 : List String)
    (hsplit : pySplitOn body "\r\n\r\n\r\n" = pre :: second :: rest2) :
    ((pySplit second).length < 2 →
      extract_notification_email body =
        some [("process", some (Val.s "unknown")),
              ("error", some (Val.s "Invalid body preview format"))]) ∧
    (2 ≤ (pySplit second).length →
      (pySplit second).getD 1 "" ∉
        ["Compraste", "Transferiste", "Pagaste", "Recibiste", "Retiraste"] →
      ∃ r, extract_notification_email body = some r ∧
        pyGet r "process" = some (Val.s ((pySplit second).getD 1 "")) ∧
        dGet "error" r = none) := by
  rw [extract_eq_core body pre second rest2 hsplit]
  constructor
  · intro hlen
    simp only [notifCore]
    rw [if_pos hlen]
  · intro hlen hne
    simp only [List.mem_cons, not_or] at hne
    obtain ⟨h1, h2, h3, h4, h5, -⟩ := hne
    simp only [notifCore]
    rw [if_neg (Nat.not_lt.mpr hlen)]
    rw [if_neg h1, if_neg h2, if_neg h3, if_neg h4, if_neg h5]
    rcases amountSearch body.data with - | ds
    · refine ⟨_, rfl, ?_, ?_⟩
      · simp [pyGet, dGet]
      · simp [dGet]
    · refine ⟨_, rfl, ?_, ?_⟩
      · rw [pyGet_dictSet]
        simp [pyGet, dGet]
      · rw [dGet_dictSet]
        simp [dGet]

/-- Counterexample to Claim C4 as stated: the body `"H\r\n\r\n\r\nfoo bar"`
has two tokens and the unrecognized verb `"bar"`, yet the result is
`{process: "bar"}`, not `{process: "unknown", error: ...}`. -/
theorem c4_counterexample :
    extract_notification_email "H\r\n\r\n\r\nfoo bar" =
      some [("process", some (Val.s "bar"))] ∧
    some [("process", some (Val.s "bar"))] ≠
      some [("process", some (Val.s "unknown")),
            ("error", some (Val.s "Invalid body preview format"))] := by
  constructor
  · decide
  · decide

/-- Witness for C4 (amended) at the counterexample input. -/
theorem c4_witness :
    ∃ r, extract_notification_email "H\r\n\r\n\r\nfoo bar" = some r ∧
      pyGet r "process" = some (Val.s "bar") ∧ dGet "error" r = none := by
  have h := (c4_short_or_unknown_verb "H\r\n\r\n\r\nfoo bar" "H" "foo bar" []
    (by decide)).2 (by decide) (by decide)
  have he : (pySplit "foo bar").getD 1 "" = "bar" := by decide
  rw [he] at h
  exact h

/-- Is the field value a number (int or float)? -/
def valIsNum : Option Val → Bool
  | some (Val.i _) => true
  | some (Val.q _) => true
  | _ => false

/-- Claim C9 (amended): the extractors normalize numeric text (separators
stripped) but these two fields are stored as STRINGS, not numbers: the
notification parser's `value` is the stripped digit string, and every field
the PDF cascade's `_extract_with_pypdf2` emits (its `Total` in particular,
which keeps the matched token verbatim) is a string. -/
theorem c9_values_are_strings :
    (∀ (body pre second : String) (rest2 : List String) (ds : List Char),
        pySplitOn body "\r\n\r\n\r\n" = pre :: second :: rest2 →
        2 ≤ (pySplit second).length →
        amountSearch body.data = some ds →
        ∃ r, extract_notification_email body = some r ∧
          pyGet r "value" = some (Val.s (cleanAmount ds))) ∧
    (∀ (text_lines : List String) (k : String) (v : Option Val),
        dGet k (_extract_with_pypdf2 text_lines) = some v →
        ∃ s', v = some (Val.s s')) := by
  constructor
  · intro body pre second rest2 ds hsplit hlen hamt
    rw [extract_eq_core body pre second rest2 hsplit]
    simp only [notifCore]
    rw [if_neg (Nat.not_lt.mpr hlen)]
    rw [hamt]
    refine ⟨_, rfl, ?_⟩
    have hval : pyGet (dictSet
        [("process", some (Val.s ((pySplit second).getD 1 "")))]
        "value" (some (Val.s (cleanAmount ds)))) "value" =
        some (Val.s (cleanAmount ds)) := by
      rw [pyGet_dictSet]
      simp
    by_cases hp1 : (pySplit second).getD 1 "" = "Compraste"
    · rw [if_pos hp1,
          comprasteLoop_pyGet _ _ _ _ _ _ (by decide) (by decide) (by decide)]
      exact hval
    rw [if_neg hp1]
    by_cases hp2 : (pySplit second).getD 1 "" = "Transferiste"
    · rw [if_pos hp2,
          transferisteFields_pyGet _ _ _ (by decide) (by decide) (by decide)]
      exact hval
    rw [if_neg hp2]
    by_cases hp3 : (pySplit second).getD 1 "" = "Pagaste"
    · rw [if_pos hp3,
          pagasteLoop_pyGet _ _ _ _ _ _ (by decide) (by decide) (by decide)]
      exact hval
    rw [if_neg hp3]
    by_cases hp4 : (pySplit second).getD 1 "" = "Recibiste"
    · rw [if_pos hp4,
          recibisteLoop_pyGet _ _ _ _ _ _ (by decide) (by decide) (by decide)]
      exact hval
    rw [if_neg hp4]
    by_cases hp5 : (pySplit second).getD 1 "" = "Retiraste"
    · rw [if_pos hp5,
          retirasteLoop_pyGet _ _ _ _ _ _ (by decide) (by decide) (by decide)]
      exact hval
    rw [if_neg hp5]
    exact hval
  · intro text_lines k v hv
    refine pypdf2Loop_strVals text_lines [] ?_ k v hv
    intro k' v' h'
    simp [dGet] at h'

/-- Counterexample to Claim C9 as stated: a parsed `Compraste` notification
with amount `$1.500` stores `value` as the string `"1500"`, not a number. -/
theorem c9_counterexample :
    extract_notification_email
        "B\r\n\r\n\r\nB Compraste en X con tu tarjeta el hoy $1.500" =
      some [("process", some (Val.s "Compraste")),
            ("value", some (Val.s "1500")), ("where", some (Val.s "")),
            ("with", some (Val.s "tarjeta")), ("date", some (Val.s "hoy"))] ∧
    valIsNum (pyGet
      [("process", some (Val.s "Compraste")), ("value", some (Val.s "1500")),
       ("where", some (Val.s "")), ("with", some (Val.s "tarjeta")),
       ("date", some (Val.s "hoy"))] "value") = false := by
  constructor
  · decide
  · decide

/-- Witness for C9 (amended) at a concrete `Compraste` notification. -/
theorem c9_witness :
    ∃ r, extract_notification_email
        "B\r\n\r\n\r\nB Compraste en X con tu tarjeta el hoy $1.500" =
        some r ∧
      pyGet r "value" = some (Val.s "1500") := by
  have h := c9_values_are_strings.1
    "B\r\n\r\n\r\nB Compraste en X con tu tarjeta el hoy $1.500" "B"
    "B Compraste en X con tu tarjeta el hoy $1.500" []
    ['1', '.', '5', '0', '0'] (by decide) (by decide) (by decide)
  have he : cleanAmount ['1', '.', '5', '0', '0'] = "1500" := by decide
  rw [he] at h
  exact h

/-- Claim C8: in the UBL XML path, a parse failure (missing key or unparseable
number: `KeyError`/`ValueError`) of an individual tax entry contributes zero
and raises nothing — a failing entry of a tax list is skipped (first
conjunct), and a failing single tax object leaves `taxes = 0` with a
successful result (second conjunct) — whereas a missing required node raises a
structured missing-field error that aborts the document: a missing
`cbc:InvoicedQuantity` gives the "Missing required field in product" error
(third conjunct) and a missing period chain gives the
"Missing required XML field" error from `get_from_xml` (fourth conjunct). -/
theorem c8_tax_soft_fail_vs_missing_node :
    (∀ (t : XVal) (acc : ℚ) (ts : List XVal),
        ((∃ k, taxEntryAmt t = .error (.keyError k)) ∨
          taxEntryAmt t = .error .valueError) →
        taxFold acc (t :: ts) = taxFold acc ts) ∧
    (∀ tv : XVal,
        ((∃ k, taxEntryAmt tv = .error (.keyError k)) ∨
          taxEntryAmt tv = .error .valueError) →
        taxesOf (some tv) = .ok 0) ∧
    (∀ (product : List (String × XVal)) (n : Int),
        pyIntXOpt (productIdVal product) = .ok n →
        xLookup "cbc:InvoicedQuantity" product = none →
        _extract_product_info product =
          .error (.missingProductField "cbc:InvoicedQuantity")) ∧
    (∀ (xml inv : List (String × XVal)),
        xLookup "Invoice" xml = some (.xd inv) →
        xLookup "ext:UBLExtensions" inv = none →
        get_from_xml xml = .error (.missingXmlField "ext:UBLExtensions")) := by
  refine ⟨?_, ?_, ?_, ?_⟩
  · intro t acc ts h
    rcases h with ⟨k, hk⟩ | hv
    · simp only [taxFold]
      rw [hk]
    · simp only [taxFold]
      rw [hv]
  · intro tv h
    have htype : ∀ s, taxEntryAmt (XVal.xs s) = .error .typeError := fun s => rfl
    have htypeL : ∀ ls, taxEntryAmt (XVal.xl ls) = .error .typeError :=
      fun ls => rfl
    cases tv with
    | xs s =>
      exfalso
      rcases h with ⟨k, hk⟩ | hv
      · rw [htype s] at hk
        exact absurd hk (by simp)
      · rw [htype s] at hv
        exact absurd hv (by simp)
    | xl ls =>
      exfalso
      rcases h with ⟨k, hk⟩ | hv
      · rw [htypeL ls] at hk
        exact absurd hk (by simp)
      · rw [htypeL ls] at hv
        exact absurd hv (by simp)
    | xd es =>
      have hred : taxesOf (some (XVal.xd es)) =
          if xTruthy (XVal.xd es) then taxSingle (XVal.xd es)
          else Except.ok 0 := rfl
      rw [hred]
      by_cases ht : xTruthy (XVal.xd es)
      · rw [if_pos ht]
        unfold taxSingle
        rcases h with ⟨k, hk⟩ | hv
        · rw [hk]
        · rw [hv]
      · rw [if_neg ht]
  · intro product n hid hq
    unfold _extract_product_info
    rw [hid]
    have hsub : xSubD product "cbc:InvoicedQuantity" =
        .error (.keyError "cbc:InvoicedQuantity") := by
      unfold xSubD
      rw [hq]
    rw [hsub]
    rfl
  · intro xml inv hinv hper
    have h1 : xSubD xml "Invoice" = .ok (.xd inv) := by
      unfold xSubD
      rw [hinv]
    have h3 : xSub (XVal.xd inv) "ext:UBLExtensions" =
        .error (.keyError "ext:UBLExtensions") := by
      show xSubD inv "ext:UBLExtensions" = _
      unfold xSubD
      rw [hper]
    have h2 : periodOfV (.xd inv) = .error (.keyError "ext:UBLExtensions") := by
      unfold periodOfV
      rw [h3]
      rfl
    simp only [get_from_xml, h1, h2]
    rfl

/-- Witness for C8: a product with id `7` and no `cbc:InvoicedQuantity` node
aborts with the structured missing-field error, and a single tax object with
no `cac:TaxSubtotal` key contributes zero taxes to an otherwise complete
product. -/
theorem c8_witness :
    _extract_product_info [("cbc:ID", XVal.xs "7")] =
      .error (.missingProductField "cbc:InvoicedQuantity") ∧
    taxesOf (some (XVal.xd [("other", XVal.xs "1")])) = .ok 0 := by
  constructor
  · exact c8_tax_soft_fail_vs_missing_node.2.2.1 [("cbc:ID", XVal.xs "7")] 7
      rfl rfl
  · exact c8_tax_soft_fail_vs_missing_node.2.1 (XVal.xd [("other", XVal.xs "1")])
      (Or.inl ⟨"cac:TaxSubtotal", rfl⟩)
